import Mathlib

/-!
Verification of the orders-microservice orchestration core
(`src/src/orders/orders.service.ts`), shallowly embedded in Lean 4.

The service methods become Lean functions over an explicit database
state (`Db`) and an environment (`Env`) holding the remote
request/reply collaborators (product validator, payment gateway).
JavaScript exceptions become `Except` values; the distinction between
a thrown `RpcException` and a raw (unwrapped) error is kept in the
`SvcError` type.  Every remote validation call an operation performs
is recorded in an explicit trace (the list of productId lists sent),
so claims about which calls are made can be stated directly.
-/

namespace Orders

/-- Modelled from the spec: the Prisma schema file is not under src/;
the spec names `PENDING` (initial), `PAID` (reached only via paid
finalization), plus intermediate cancellation/delivery states. -/
inductive OrderStatus where
  | PENDING
  | PAID
  | DELIVERED
  | CANCELLED
deriving DecidableEq, Repr

/-- A product record as returned by the remote product validator
(`{ cmd: 'validate_products' }` reply): id, price and name. -/
structure Product where
  id : String
  price : Rat
  name : String
deriving DecidableEq, Repr

/-- Modelled from the spec: the DTO files are not under src/; per the
spec a request item carries a productId, a quantity, and possibly a
client-supplied price which the service must ignore (price tampering
prevention). -/
structure CreateOrderItemDto where
  productId : String
  quantity : Nat
  price : Rat
deriving DecidableEq, Repr

/-- Modelled from the spec: the create-order DTO (not under src/), a
list of (productId, quantity[, client price]) items. -/
structure CreateOrderDto where
  items : List CreateOrderItemDto
deriving DecidableEq, Repr

/-- A persisted order line item: snapshot price, quantity, productId
(the fields `select`ed by the service's `include` clauses). -/
structure OrderItemRow where
  price : Rat
  quantity : Nat
  productId : String
deriving DecidableEq, Repr

/-- A persisted order row.  Fields follow the service code
(`totalAmount`, `totalItems`, `status`, `paid`, `paidAt`,
`stripeChargeId`) plus the owned line items. -/
structure Order where
  id : String
  totalAmount : Rat
  totalItems : Nat
  status : OrderStatus
  paid : Bool
  paidAt : Option Nat
  stripeChargeId : Option String
  items : List OrderItemRow
deriving DecidableEq, Repr

/-- A persisted order receipt, created by `paidOrder`'s nested
`OrderReceipt: { create: { receiptUrl } }`.  One-to-one with `Order`. -/
structure OrderReceipt where
  orderId : String
  receiptUrl : String
deriving DecidableEq, Repr

/-- The order store: persisted orders and receipts, a write counter
(each committed transaction increments it), the next generated id and
the current clock (used for `new Date()`). -/
structure Db where
  orders : List Order
  receipts : List OrderReceipt
  writeCount : Nat
  nextId : Nat
  now : Nat
deriving DecidableEq, Repr

/-- The underlying cause of a failure: a JS `TypeError` from reading a
field of `undefined`, a remote call erroring, or the store rejecting
an operation. -/
inductive Cause where
  | typeErrorUndefined (field : String)
  | remote (msg : String)
  | storage (msg : String)
deriving DecidableEq, Repr

/-- What the caller of a service method observes on failure: an
`RpcException` built from a structured 404 payload (`rpcNotFound`), an
`RpcException` wrapping an arbitrary cause (`rpcWrapped`, the uniform
remote-procedure-failure shape), or a raw error that escaped without
being wrapped in any `RpcException` (`raw`). -/
inductive SvcError where
  | rpcNotFound (ident : String) (message : String)
  | rpcWrapped (cause : Cause)
  | raw (cause : Cause)
deriving DecidableEq, Repr

/-- An item of the payment-session request: name, price, quantity
(productId dropped), as built by `createPaymentSession`. -/
structure PaymentItem where
  name : String
  price : Rat
  quantity : Nat
deriving DecidableEq, Repr

/-- The payload `createPaymentSession` sends to `create.payment.session`. -/
structure PaymentRequest where
  orderId : String
  currency : String
  items : List PaymentItem
deriving DecidableEq, Repr

/-- The environment of remote collaborators: the product validator
(`validate_products`) and the payment gateway
(`create.payment.session`), each either replying or erroring. -/
structure Env where
  validate : List String → Except Cause (List Product)
  payment : PaymentRequest → Except Cause String

/-- A line item of a service response, decorated with the product
name looked up from the validator's reply. -/
structure NamedItem where
  price : Rat
  quantity : Nat
  productId : String
  name : String
deriving DecidableEq, Repr

/-- The response shape `{ ...order, OrderItem: [...items with name] }`
returned by `create` and `findOne`. -/
structure OrderWithNames where
  base : Order
  namedItems : List NamedItem
deriving DecidableEq, Repr

/-- Result of a state-changing operation: the returned value or error,
the database afterwards, and the trace of productId lists sent to the
remote validator. -/
structure OpResult (α : Type) where
  result : Except SvcError α
  db : Db
  calls : List (List String)
deriving Repr

instance {ε α : Type} [DecidableEq ε] [DecidableEq α] :
    DecidableEq (Except ε α) := fun a b =>
  match a, b with
  | .error x, .error y => decidable_of_iff (x = y) (by simp)
  | .error _, .ok _ => .isFalse (by simp)
  | .ok _, .error _ => .isFalse (by simp)
  | .ok x, .ok y => decidable_of_iff (x = y) (by simp)

instance {α : Type} [DecidableEq α] : DecidableEq (OpResult α) :=
  fun a b => by
    cases a; cases b
    rw [OpResult.mk.injEq]
    exact inferInstance

/-- Line 32: `createOrderDto.items.map(item => item.productId)` —
the productId list sent to the validator, one entry per item,
duplicates preserved. -/
def productIdsSent (items : List CreateOrderItemDto) : List String :=
  items.map (·.productId)

/-- `products.find(product => product.id === pid)` (lines 40, 57, 79,
148). -/
def findProduct (products : List Product) (pid : String) : Option Product :=
  products.find? (fun p => p.id == pid)

/-- Lines 39–43: `items.reduce((acc, it) => acc + product.price * it.quantity, 0)`
where `product` is the `find` result; if the find misses, reading
`.price` of `undefined` throws a `TypeError`. -/
def computeTotalAmount (products : List Product) :
    List CreateOrderItemDto → Rat → Except Cause Rat
  | [], acc => .ok acc
  | it :: rest, acc =>
    match findProduct products it.productId with
    | none => .error (.typeErrorUndefined "price")
    | some p => computeTotalAmount products rest (acc + p.price * it.quantity)

/-- Lines 45–47: `items.reduce((acc, it) => acc + it.quantity, 0)`. -/
def computeTotalItems (items : List CreateOrderItemDto) : Nat :=
  items.foldl (fun acc it => acc + it.quantity) 0

/-- Lines 56–60: the `createMany` rows — snapshot price from the
validator's record (another `find`, throwing on a miss), productId and
quantity from the request item. -/
def itemRows (products : List Product) :
    List CreateOrderItemDto → Except Cause (List OrderItemRow)
  | [] => .ok []
  | it :: rest =>
    match findProduct products it.productId with
    | none => .error (.typeErrorUndefined "price")
    | some p =>
      match itemRows products rest with
      | .error e => .error e
      | .ok rows => .ok ({ price := p.price, quantity := it.quantity,
                           productId := it.productId } :: rows)

/-- Lines 77–80 / 146–149: decorate each persisted row with the name
from the validator's record (a `find` whose miss throws a `TypeError`
on reading `.name`). -/
def decorate (products : List Product) :
    List OrderItemRow → Except Cause (List NamedItem)
  | [] => .ok []
  | r :: rest =>
    match findProduct products r.productId with
    | none => .error (.typeErrorUndefined "name")
    | some p =>
      match decorate products rest with
      | .error e => .error e
      | .ok ns => .ok ({ price := r.price, quantity := r.quantity,
                         productId := r.productId, name := p.name } :: ns)

/-- `OrdersService.create` (lines 28–86).  One validator call with the
per-item productId list; totals computed from the RESOLVED prices;
one transactional write creating the order and its items; response
decorated with product names.  Everything thrown inside the `try` is
rethrown as `RpcException(error)` (line 83). -/
def create (env : Env) (db : Db) (dto : CreateOrderDto) :
    OpResult OrderWithNames :=
  let calls := [productIdsSent dto.items]
  match env.validate (productIdsSent dto.items) with
  | .error c => { result := .error (.rpcWrapped c), db := db, calls := calls }
  | .ok products =>
    match computeTotalAmount products dto.items 0 with
    | .error c => { result := .error (.rpcWrapped c), db := db, calls := calls }
    | .ok totalAmount =>
      let totalItems := computeTotalItems dto.items
      match itemRows products dto.items with
      | .error c => { result := .error (.rpcWrapped c), db := db, calls := calls }
      | .ok rows =>
        let order : Order :=
          { id := toString db.nextId
            totalAmount := totalAmount
            totalItems := totalItems
            status := .PENDING
            paid := false
            paidAt := none
            stripeChargeId := none
            items := rows }
        let db' : Db :=
          { db with
            orders := db.orders ++ [order]
            writeCount := db.writeCount + 1
            nextId := db.nextId + 1 }
        match decorate products order.items with
        | .error c => { result := .error (.rpcWrapped c), db := db', calls := calls }
        | .ok named =>
          { result := .ok { base := order, namedItems := named }
            db := db', calls := calls }

/-- Modelled from the spec: the pagination DTO (not under src/), page
(≥ 1), limit (≥ 1) and an optional status filter. -/
structure OrderPaginationDto where
  page : Nat
  limit : Nat
  status : Option OrderStatus
deriving DecidableEq, Repr

/-- The `meta` object returned by `findAll`: `{ page, totalPages,
lastPage }`.  Note the code binds the row COUNT to the name
`totalPages` (line 91). -/
structure FindAllMeta where
  page : Nat
  totalPages : Nat
  lastPage : Nat
deriving DecidableEq, Repr

/-- The `{ data, meta }` object returned by `findAll`. -/
structure FindAllResult where
  data : List Order
  meta : FindAllMeta
deriving DecidableEq, Repr

/-- Prisma `where: { status }`: `undefined` means no filter. -/
def matchesStatus (status : Option OrderStatus) (o : Order) : Bool :=
  match status with
  | none => true
  | some s => o.status == s

/-- `Math.ceil(n / limit)` on non-negative operands. -/
def ceilDiv (n limit : Nat) : Nat := (n + limit - 1) / limit

/-- `OrdersService.findAll` (lines 88–114): count the rows matching
the filter (bound to `totalPages`), `lastPage = Math.ceil(totalPages /
limit)`, then fetch `limit` rows skipping `(page - 1) * limit` under
the same filter. -/
def findAll (db : Db) (dto : OrderPaginationDto) : FindAllResult :=
  let matching := db.orders.filter (matchesStatus dto.status)
  let totalPages := matching.length
  let lastPage := ceilDiv totalPages dto.limit
  let orders := (matching.drop ((dto.page - 1) * dto.limit)).take dto.limit
  { data := orders
    meta := { page := dto.page, totalPages := totalPages, lastPage := lastPage } }

/-- `this.order.findFirst({ where: { id } })`. -/
def findOrder (db : Db) (ident : String) : Option Order :=
  db.orders.find? (fun o => o.id == ident)

/-- `OrdersService.findOne` (lines 116–151): look up the order, throw
an `RpcException` with a structured NOT_FOUND payload when absent;
otherwise issue a fresh validator call over the order's own
productIds and decorate the items with names.  There is no `try`
around the remote call or the decoration, so those errors escape
unwrapped (`SvcError.raw`).  Second component: the validator-call
trace. -/
def findOne (env : Env) (db : Db) (ident : String) :
    Except SvcError OrderWithNames × List (List String) :=
  match findOrder db ident with
  | none =>
    (.error (.rpcNotFound ident
      ("Order with id [" ++ ident ++ "] not found")), [])
  | some order =>
    let ids := order.items.map (·.productId)
    match env.validate ids with
    | .error c => (.error (.raw c), [ids])
    | .ok products =>
      match decorate products order.items with
      | .error c => (.error (.raw c), [ids])
      | .ok named => (.ok { base := order, namedItems := named }, [ids])

/-- Modelled from the spec: the change-status DTO (not under src/),
an order identifier and a target status. -/
structure ChangeOrderStatusDto where
  id : String
  status : OrderStatus
deriving DecidableEq, Repr

/-- What `changeStatus` returns on success: in the no-op branch the
decorated order from `findOne` (line 159), in the transition branch
the bare updated record from `this.order.update` (lines 162–165),
which carries no item decoration. -/
inductive ChangeStatusValue where
  | unchangedDecorated (o : OrderWithNames)
  | updated (o : Order)
deriving DecidableEq, Repr

/-- `this.order.update({ where: { id }, data: { status } })`: replace
only the `status` field of the matching row. -/
def updateStatus (orders : List Order) (ident : String) (s : OrderStatus) :
    List Order :=
  orders.map (fun o => if o.id == ident then { o with status := s } else o)

/-- `OrdersService.changeStatus` (lines 153–166): look the order up via
`findOne` (reusing its NOT-FOUND semantics and its validator call);
if the status already equals the target, return the decorated order
with no write; else write a single-field status update and return the
updated record. -/
def changeStatus (env : Env) (db : Db) (dto : ChangeOrderStatusDto) :
    OpResult ChangeStatusValue :=
  match findOne env db dto.id with
  | (.error e, tr) => { result := .error e, db := db, calls := tr }
  | (.ok ow, tr) =>
    if ow.base.status == dto.status then
      { result := .ok (.unchangedDecorated ow), db := db, calls := tr }
    else
      let updated : Order := { ow.base with status := dto.status }
      { result := .ok (.updated updated)
        db := { db with
                orders := updateStatus db.orders dto.id dto.status
                writeCount := db.writeCount + 1 }
        calls := tr }

/-- `OrdersService.createPaymentSession` (lines 168–188): one payment
gateway call carrying orderId, the fixed currency `"usd"`, and the
flattened (name, price, quantity) item list; a gateway error is
wrapped into an `RpcException` by the `catchError` and rethrown as-is
by the outer catch.  No state mutation.  `paymentRequestOf` builds the
request payload (lines 171–178). -/
def paymentRequestOf (order : OrderWithNames) : PaymentRequest :=
  { orderId := order.base.id
    currency := "usd"
    items := order.namedItems.map (fun it =>
      { name := it.name, price := it.price, quantity := it.quantity }) }

def createPaymentSession (env : Env) (order : OrderWithNames) :
    Except SvcError String :=
  match env.payment (paymentRequestOf order) with
  | .error c => .error (.rpcWrapped c)
  | .ok s => .ok s

/-- `PaidOrderDto` (fields as used at lines 195–206): orderId, the
payment reference, the receipt URL. -/
structure PaidOrderDto where
  orderId : String
  stripePaymentId : String
  receiptUrl : String
deriving DecidableEq, Repr

/-- `OrdersService.paidOrder` (lines 190–213): a single
`this.order.update` that sets status PAID, paid, paidAt, the charge
id, and creates the nested `OrderReceipt` — one atomic transaction.
Prisma rejects the update when no row matches (`P2025`) or when the
one-to-one receipt already exists (unique violation); either store
error escapes unwrapped (there is no try/catch here) and the
transaction leaves the store untouched. -/
def paidOrder (db : Db) (dto : PaidOrderDto) : Except SvcError Order × Db :=
  match findOrder db dto.orderId with
  | none => (.error (.raw (.storage "Record to update not found")), db)
  | some order =>
    if (db.receipts.filter (fun r => r.orderId == dto.orderId)) ≠ [] then
      (.error (.raw (.storage "Unique constraint failed on OrderReceipt")), db)
    else
      let updated : Order :=
        { order with
          status := .PAID
          paid := true
          paidAt := some db.now
          stripeChargeId := some dto.stripePaymentId }
      let db' : Db :=
        { db with
          orders := db.orders.map
            (fun o => if o.id == dto.orderId then updated else o)
          receipts := db.receipts ++
            [{ orderId := dto.orderId, receiptUrl := dto.receiptUrl }]
          writeCount := db.writeCount + 1 }
      (.ok updated, db')

/-! ### Derived quantities used in the statements -/

/-- The price the validator resolved for a productId (0 when absent;
only used under resolvability hypotheses). -/
def resolvedPrice (ps : List Product) (pid : String) : Rat :=
  match findProduct ps pid with
  | some p => p.price
  | none => 0

/-- The name the validator resolved for a productId. -/
def resolvedName (ps : List Product) (pid : String) : String :=
  match findProduct ps pid with
  | some p => p.name
  | none => ""

/-- Replace each request item's client-supplied price field. -/
def repriceItems (f : CreateOrderItemDto → Rat)
    (items : List CreateOrderItemDto) : List CreateOrderItemDto :=
  items.map fun it => { it with price := f it }

/-! ### Concrete fixtures for witnesses and counterexamples -/

def prodA : Product := { id := "A", price := 10, name := "Apple" }

def prodB : Product := { id := "B", price := 5, name := "Banana" }

/-- A validator that knows products A and B; a gateway that replies. -/
def envW : Env :=
  { validate := fun _ => .ok [prodA, prodB]
    payment := fun _ => .ok "session" }

/-- An environment whose remote calls all error. -/
def envErr : Env :=
  { validate := fun _ => .error (.remote "ECONNREFUSED")
    payment := fun _ => .error (.remote "ECONNREFUSED") }

def db0 : Db :=
  { orders := [], receipts := [], writeCount := 0, nextId := 1, now := 100 }

def orderA : Order :=
  { id := "1", totalAmount := 20, totalItems := 2, status := .PENDING
    paid := false, paidAt := none, stripeChargeId := none
    items := [{ price := 10, quantity := 2, productId := "A" }] }

def dbOne : Db :=
  { orders := [orderA], receipts := [], writeCount := 1, nextId := 2, now := 100 }

def dtoW : CreateOrderDto :=
  { items := [ { productId := "A", quantity := 2, price := 999 },
               { productId := "B", quantity := 1, price := 77 } ] }

def dtoDup : CreateOrderDto :=
  { items := [ { productId := "A", quantity := 1, price := 0 },
               { productId := "A", quantity := 2, price := 0 } ] }

/-! ### Helper lemmas about the pricing fold and lookups -/

theorem computeTotalAmount_resolved (ps : List Product)
    (items : List CreateOrderItemDto)
    (h : ∀ it ∈ items, (findProduct ps it.productId).isSome) (acc : Rat) :
    computeTotalAmount ps items acc =
      .ok (acc + (items.map fun it =>
        resolvedPrice ps it.productId * (it.quantity : Rat)).sum) := by
  induction items generalizing acc with
  | nil => simp [computeTotalAmount]
  | cons it rest ih =>
    obtain ⟨p, hp⟩ := Option.isSome_iff_exists.mp (h it (by simp))
    simp only [computeTotalAmount, hp]
    rw [ih (fun x hx => h x (List.mem_cons_of_mem _ hx))]
    simp [resolvedPrice, hp, add_assoc]

theorem computeTotalAmount_miss (ps : List Product)
    (items : List CreateOrderItemDto)
    (h : ∃ it ∈ items, findProduct ps it.productId = none) (acc : Rat) :
    computeTotalAmount ps items acc = .error (.typeErrorUndefined "price") := by
  induction items generalizing acc with
  | nil => simp at h
  | cons it rest ih =>
    rcases h with ⟨x, hx, hnone⟩
    rcases List.mem_cons.mp hx with rfl | hxr
    · simp only [computeTotalAmount, hnone]
    · cases hp : findProduct ps it.productId with
      | none => simp only [computeTotalAmount, hp]
      | some p =>
        simp only [computeTotalAmount, hp]
        exact ih ⟨x, hxr, hnone⟩ _

theorem computeTotalItems_eq (items : List CreateOrderItemDto) :
    computeTotalItems items = (items.map (·.quantity)).sum := by
  have key : ∀ (l : List CreateOrderItemDto) (acc : Nat),
      l.foldl (fun a it => a + it.quantity) acc = acc + (l.map (·.quantity)).sum := by
    intro l
    induction l with
    | nil => simp
    | cons it rest ih => intro acc; simp [ih, add_assoc]
  simpa [computeTotalItems] using key items 0

theorem itemRows_resolved (ps : List Product)
    (items : List CreateOrderItemDto)
    (h : ∀ it ∈ items, (findProduct ps it.productId).isSome) :
    itemRows ps items = .ok (items.map fun it =>
      { price := resolvedPrice ps it.productId, quantity := it.quantity
        productId := it.productId }) := by
  induction items with
  | nil => simp [itemRows]
  | cons it rest ih =>
    obtain ⟨p, hp⟩ := Option.isSome_iff_exists.mp (h it (by simp))
    simp only [itemRows, hp]
    rw [ih (fun x hx => h x (List.mem_cons_of_mem _ hx))]
    simp [resolvedPrice, hp]

theorem decorate_resolved (ps : List Product) (rows : List OrderItemRow)
    (h : ∀ r ∈ rows, (findProduct ps r.productId).isSome) :
    decorate ps rows = .ok (rows.map fun r =>
      { price := r.price, quantity := r.quantity, productId := r.productId
        name := resolvedName ps r.productId }) := by
  induction rows with
  | nil => simp [decorate]
  | cons r rest ih =>
    obtain ⟨p, hp⟩ := Option.isSome_iff_exists.mp (h r (by simp))
    simp only [decorate, hp]
    rw [ih (fun x hx => h x (List.mem_cons_of_mem _ hx))]
    simp [resolvedName, hp]

/-! ### Client-supplied prices are never read by `create` -/

theorem productIdsSent_reprice (f : CreateOrderItemDto → Rat)
    (items : List CreateOrderItemDto) :
    productIdsSent (repriceItems f items) = productIdsSent items := by
  simp [productIdsSent, repriceItems, List.map_map, Function.comp]

theorem computeTotalAmount_reprice (ps : List Product)
    (f : CreateOrderItemDto → Rat) (items : List CreateOrderItemDto)
    (acc : Rat) :
    computeTotalAmount ps (repriceItems f items) acc =
      computeTotalAmount ps items acc := by
  induction items generalizing acc with
  | nil => rfl
  | cons it rest ih =>
    show computeTotalAmount ps ({ it with price := f it } :: repriceItems f rest) acc = _
    cases hp : findProduct ps it.productId with
    | none => simp only [computeTotalAmount, hp]
    | some p => simp only [computeTotalAmount, hp, ih]

theorem computeTotalItems_reprice (f : CreateOrderItemDto → Rat)
    (items : List CreateOrderItemDto) :
    computeTotalItems (repriceItems f items) = computeTotalItems items := by
  rw [computeTotalItems_eq, computeTotalItems_eq]
  simp only [repriceItems, List.map_map]
  rfl

theorem itemRows_reprice (ps : List Product) (f : CreateOrderItemDto → Rat)
    (items : List CreateOrderItemDto) :
    itemRows ps (repriceItems f items) = itemRows ps items := by
  induction items with
  | nil => rfl
  | cons it rest ih =>
    show itemRows ps ({ it with price := f it } :: repriceItems f rest) = _
    cases hp : findProduct ps it.productId with
    | none => simp only [itemRows, hp]
    | some p => simp only [itemRows, hp, ih]

theorem create_reprice (env : Env) (db : Db) (f : CreateOrderItemDto → Rat)
    (items : List CreateOrderItemDto) :
    create env db { items := repriceItems f items } =
      create env db { items := items } := by
  simp only [create, productIdsSent_reprice, computeTotalAmount_reprice,
    computeTotalItems_reprice, itemRows_reprice]

/-- An item list whose productId `"C"` is absent from `envW`'s
validator response. -/
def dtoC : CreateOrderDto :=
  { items := [ { productId := "C", quantity := 3, price := 1 } ] }

/-! ### The claims -/

/-- C1: for every item list in which every productId resolves to a
product in the validator's response, `create` returns an order whose
totalAmount equals the sum over items of (resolved remote price ×
quantity) and whose totalItems equals the sum of quantities; the price
used is the validator-resolved price and any client-supplied price is
ignored (repricing the request items changes nothing). -/
theorem create_totals_use_resolved_prices
    (env : Env) (db : Db) (dto : CreateOrderDto) (products : List Product)
    (hv : env.validate (productIdsSent dto.items) = .ok products)
    (hres : ∀ it ∈ dto.items, (findProduct products it.productId).isSome) :
    ∃ ow : OrderWithNames,
      (create env db dto).result = .ok ow ∧
      ow.base.totalAmount = (dto.items.map fun it =>
        resolvedPrice products it.productId * (it.quantity : Rat)).sum ∧
      ow.base.totalItems = (dto.items.map (·.quantity)).sum ∧
      ∀ f : CreateOrderItemDto → Rat,
        create env db { items := repriceItems f dto.items } =
          create env db dto := by
  have hrows : ∀ r ∈ (dto.items.map fun it =>
      ({ price := resolvedPrice products it.productId, quantity := it.quantity
         productId := it.productId } : OrderItemRow)),
      (findProduct products r.productId).isSome := by
    intro r hr
    obtain ⟨it, hit, rfl⟩ := List.mem_map.mp hr
    exact hres it hit
  obtain ⟨ow, h1, h2, h3⟩ :
      ∃ ow : OrderWithNames,
        (create env db dto).result = .ok ow ∧
        ow.base.totalAmount = (dto.items.map fun it =>
          resolvedPrice products it.productId * (it.quantity : Rat)).sum ∧
        ow.base.totalItems = (dto.items.map (·.quantity)).sum := by
    simp only [create, hv, computeTotalAmount_resolved products dto.items hres,
      itemRows_resolved products dto.items hres,
      decorate_resolved products _ hrows]
    exact ⟨_, rfl, by simp, computeTotalItems_eq dto.items⟩
  exact ⟨ow, h1, h2, h3, fun f => create_reprice env db f dto.items⟩

/-- C1 witness: the spec's own example (A@10 × 2 and B@5 × 1 gives
totalAmount 25 and totalItems 3), via `create_totals_use_resolved_prices`. -/
theorem create_totals_use_resolved_prices_witness :
    (∀ it ∈ dtoW.items, (findProduct [prodA, prodB] it.productId).isSome) ∧
    ∃ ow : OrderWithNames,
      (create envW db0 dtoW).result = .ok ow ∧
      ow.base.totalAmount = (dtoW.items.map fun it =>
        resolvedPrice [prodA, prodB] it.productId * (it.quantity : Rat)).sum ∧
      ow.base.totalItems = (dtoW.items.map (·.quantity)).sum ∧
      ∀ f : CreateOrderItemDto → Rat,
        create envW db0 { items := repriceItems f dtoW.items } =
          create envW db0 dtoW :=
  ⟨by decide,
   create_totals_use_resolved_prices envW db0 dtoW [prodA, prodB] rfl (by decide)⟩

/-- C2: for every item list containing at least one productId absent
from the validator's response, `create` performs no write to the order
store (orders, receipts and write count unchanged) and surfaces a
failure (the wrapped TypeError from reading `.price` of `undefined`),
before any persistence attempt. -/
theorem create_unresolved_id_no_write
    (env : Env) (db : Db) (dto : CreateOrderDto) (products : List Product)
    (hv : env.validate (productIdsSent dto.items) = .ok products)
    (hmiss : ∃ it ∈ dto.items, findProduct products it.productId = none) :
    (create env db dto).db = db ∧
    (create env db dto).db.orders = db.orders ∧
    (create env db dto).db.writeCount = db.writeCount ∧
    (create env db dto).result =
      .error (.rpcWrapped (.typeErrorUndefined "price")) := by
  simp only [create, hv, computeTotalAmount_miss products dto.items hmiss]
  simp

/-- C2 witness: creating with the unknown productId `"C"` leaves the
empty store untouched and errors, via `create_unresolved_id_no_write`. -/
theorem create_unresolved_id_no_write_witness :
    (∃ it ∈ dtoC.items, findProduct [prodA, prodB] it.productId = none) ∧
    (create envW db0 dtoC).db = db0 ∧
    (create envW db0 dtoC).db.orders = db0.orders ∧
    (create envW db0 dtoC).db.writeCount = db0.writeCount ∧
    (create envW db0 dtoC).result =
      .error (.rpcWrapped (.typeErrorUndefined "price")) :=
  ⟨by decide,
   create_unresolved_id_no_write envW db0 dtoC [prodA, prodB] rfl (by decide)⟩

/-- C5: for every identifier with no matching order in the store,
`findOne` fails with the structured NOT-FOUND error carrying the
identifier; it never returns a value, and the error is a different
constructor from the uniform wrapped dependency failure. -/
theorem findOne_missing_id_not_found (env : Env) (db : Db) (ident : String)
    (h : findOrder db ident = none) :
    (findOne env db ident).1 =
      .error (.rpcNotFound ident
        ("Order with id [" ++ ident ++ "] not found")) ∧
    (∀ ow : OrderWithNames, (findOne env db ident).1 ≠ .ok ow) ∧
    (∀ c : Cause, (findOne env db ident).1 ≠ .error (.rpcWrapped c)) := by
  simp only [findOne, h]
  simp

/-- C5 witness: looking up `"zz"` in the empty store, via
`findOne_missing_id_not_found`. -/
theorem findOne_missing_id_not_found_witness :
    (findOne envW db0 "zz").1 =
      .error (.rpcNotFound "zz" ("Order with id [" ++ "zz" ++ "] not found")) ∧
    (∀ ow : OrderWithNames, (findOne envW db0 "zz").1 ≠ .ok ow) ∧
    (∀ c : Cause, (findOne envW db0 "zz").1 ≠ .error (.rpcWrapped c)) :=
  findOne_missing_id_not_found envW db0 "zz" rfl

/-- C8 counterexample: a request naming productId `"A"` twice sends
the validator the list `["A", "A"]`, which is not duplicate-free, so
the sent list is not the collection of distinct productIds. -/
theorem create_sends_duplicate_ids_cex :
    (create envW db0 dtoDup).calls = [["A", "A"]] ∧
    ¬ (["A", "A"] : List String).Nodup :=
  ⟨rfl, by decide⟩

/-- C8 amended: the productId list sent in the single remote
validation call is the per-item productId list of the request, in
request order with duplicates preserved (not deduplicated); every
requested id appears in it. -/
theorem create_sends_per_item_ids (env : Env) (db : Db) (dto : CreateOrderDto) :
    (create env db dto).calls = [productIdsSent dto.items] ∧
    ∀ it ∈ dto.items, it.productId ∈ productIdsSent dto.items := by
  constructor
  · cases hval : env.validate (productIdsSent dto.items) with
    | error c => simp [create, hval]
    | ok products =>
      cases ha : computeTotalAmount products dto.items 0 with
      | error c => simp [create, hval, ha]
      | ok ta =>
        cases hr : itemRows products dto.items with
        | error c => simp [create, hval, ha, hr]
        | ok rows =>
          cases hd : decorate products rows with
          | error c => simp [create, hval, ha, hr, hd]
          | ok named => simp [create, hval, ha, hr, hd]
  · intro it hit
    exact List.mem_map_of_mem _ hit

/-- C8 amended witness: the duplicate request of the counterexample,
via `create_sends_per_item_ids`. -/
theorem create_sends_per_item_ids_witness :
    (create envW db0 dtoDup).calls = [productIdsSent dtoDup.items] ∧
    ∀ it ∈ dtoDup.items, it.productId ∈ productIdsSent dtoDup.items :=
  create_sends_per_item_ids envW db0 dtoDup

/-- A row fixture for pagination: order number `i`, no items. -/
def mkOrderN (i : Nat) : Order :=
  { id := toString i, totalAmount := 10, totalItems := 1, status := .PENDING
    paid := false, paidAt := none, stripeChargeId := none, items := [] }

/-- A store holding 25 orders, all `PENDING`. -/
def db25 : Db :=
  { orders := (List.range 25).map mkOrderN, receipts := [], writeCount := 25
    nextId := 26, now := 0 }

/-- C4 counterexample: with 25 matching rows, page 1 and limit 10, the
returned `meta.totalPages` is 25 (the raw row count bound to that name
at line 91), not 3 as the claim states; `lastPage` is 3 and the page
holds 10 rows. -/
theorem findAll_totalPages_cex :
    (findAll db25 { page := 1, limit := 10, status := none }).meta.totalPages = 25 ∧
    (findAll db25 { page := 1, limit := 10, status := none }).meta.totalPages ≠ 3 ∧
    (findAll db25 { page := 1, limit := 10, status := none }).meta.lastPage = 3 ∧
    (findAll db25 { page := 1, limit := 10, status := none }).data.length = 10 := by
  refine ⟨rfl, by decide, rfl, rfl⟩

/-- C4 amended: for every store with 25 rows matching the filter,
`findAll(page 1, limit 10)` returns 10 rows, `meta.lastPage = 3`, and
`meta.totalPages = 25` (the code binds the total row COUNT, not the
page count, to `totalPages`); for every page strictly beyond
`lastPage`, `findAll` returns an empty data sequence, not an error,
with the same meta totals. -/
theorem findAll_pagination_amended (db : Db) (status : Option OrderStatus)
    (p : Nat) (h : (db.orders.filter (matchesStatus status)).length = 25) :
    (findAll db { page := 1, limit := 10, status := status }).data.length = 10 ∧
    (findAll db { page := 1, limit := 10, status := status }).meta.lastPage = 3 ∧
    (findAll db { page := 1, limit := 10, status := status }).meta.totalPages = 25 ∧
    (3 < p →
      (findAll db { page := p, limit := 10, status := status }).data = [] ∧
      (findAll db { page := p, limit := 10, status := status }).meta.totalPages = 25 ∧
      (findAll db { page := p, limit := 10, status := status }).meta.lastPage = 3) := by
  refine ⟨?_, ?_, ?_, ?_⟩
  · simp [findAll, h]
  · simp [findAll, ceilDiv, h]
  · simp [findAll, h]
  · intro hp
    have hlen : (db.orders.filter (matchesStatus status)).length ≤ (p - 1) * 10 := by
      rw [h]; omega
    refine ⟨?_, by simp [findAll, h], by simp [findAll, ceilDiv, h]⟩
    simp [findAll, List.drop_eq_nil_of_le hlen]

/-- C4 amended witness: the 25-row store of the counterexample and
page 4, via `findAll_pagination_amended`. -/
theorem findAll_pagination_amended_witness :
    ((db25.orders.filter (matchesStatus none)).length = 25) ∧
    (findAll db25 { page := 1, limit := 10, status := none }).data.length = 10 ∧
    (findAll db25 { page := 1, limit := 10, status := none }).meta.lastPage = 3 ∧
    (findAll db25 { page := 1, limit := 10, status := none }).meta.totalPages = 25 ∧
    (3 < 4 →
      (findAll db25 { page := 4, limit := 10, status := none }).data = [] ∧
      (findAll db25 { page := 4, limit := 10, status := none }).meta.totalPages = 25 ∧
      (findAll db25 { page := 4, limit := 10, status := none }).meta.lastPage = 3) :=
  ⟨rfl, findAll_pagination_amended db25 none 4 rfl⟩

/-- On success, `findOne` returned the stored order (decorated) and
made exactly one validator call carrying the order's own productIds. -/
theorem findOne_ok_spec (env : Env) (db : Db) (ident : String)
    (ow : OrderWithNames) (tr : List (List String))
    (h : findOne env db ident = (.ok ow, tr)) :
    findOrder db ident = some ow.base ∧
    tr = [ow.base.items.map (·.productId)] := by
  cases hfo : findOrder db ident with
  | none => simp [findOne, hfo] at h
  | some order =>
    cases hv : env.validate (order.items.map (·.productId)) with
    | error c => simp [findOne, hfo, hv] at h
    | ok products =>
      cases hd : decorate products order.items with
      | error c => simp [findOne, hfo, hv, hd] at h
      | ok named =>
        simp only [findOne, hfo, hv, hd, Prod.mk.injEq, Except.ok.injEq] at h
        obtain ⟨h1, h2⟩ := h
        subst h2
        rw [← h1]
        exact ⟨rfl, rfl⟩

/-- The decorated form of `orderA` as `findOne` returns it. -/
def owA : OrderWithNames :=
  { base := orderA
    namedItems := [{ price := 10, quantity := 2, productId := "A"
                     name := "Apple" }] }

/-- C6: for every existing order whose current status already equals
the requested target status, `changeStatus` returns that stored order
(decorated) and performs no write: the store, and in particular its
write count, is unchanged. -/
theorem changeStatus_same_status_no_write
    (env : Env) (db : Db) (dto : ChangeOrderStatusDto)
    (ow : OrderWithNames) (tr : List (List String))
    (h : findOne env db dto.id = (.ok ow, tr))
    (hs : ow.base.status = dto.status) :
    (changeStatus env db dto).db = db ∧
    (changeStatus env db dto).db.writeCount = db.writeCount ∧
    (changeStatus env db dto).result = .ok (.unchangedDecorated ow) ∧
    findOrder db dto.id = some ow.base := by
  have hbase := (findOne_ok_spec env db dto.id ow tr h).1
  have hb : (ow.base.status == dto.status) = true := by simp [hs]
  refine ⟨?_, ?_, ?_, hbase⟩ <;> simp [changeStatus, h, hb]

/-- C6 witness: requesting the `PENDING` → `PENDING` transition on the
stored pending order, via `changeStatus_same_status_no_write`. -/
theorem changeStatus_same_status_no_write_witness :
    (changeStatus envW dbOne { id := "1", status := .PENDING }).db = dbOne ∧
    (changeStatus envW dbOne { id := "1", status := .PENDING }).db.writeCount
      = dbOne.writeCount ∧
    (changeStatus envW dbOne { id := "1", status := .PENDING }).result
      = .ok (.unchangedDecorated owA) ∧
    findOrder dbOne "1" = some owA.base :=
  changeStatus_same_status_no_write envW dbOne { id := "1", status := .PENDING }
    owA [["A"]] rfl rfl

/-- C7: for every existing order and target status different from its
current status, `changeStatus` writes back the stored order with only
the status field replaced: the returned record agrees with the stored
order on every other field, rows with other ids are untouched, and no
receipt is touched. -/
theorem changeStatus_updates_only_status
    (env : Env) (db : Db) (dto : ChangeOrderStatusDto)
    (ow : OrderWithNames) (tr : List (List String))
    (h : findOne env db dto.id = (.ok ow, tr))
    (hs : ow.base.status ≠ dto.status) :
    (changeStatus env db dto).result =
      .ok (.updated { ow.base with status := dto.status }) ∧
    ({ ow.base with status := dto.status } : Order).id = ow.base.id ∧
    ({ ow.base with status := dto.status } : Order).totalAmount
      = ow.base.totalAmount ∧
    ({ ow.base with status := dto.status } : Order).totalItems
      = ow.base.totalItems ∧
    ({ ow.base with status := dto.status } : Order).paid = ow.base.paid ∧
    ({ ow.base with status := dto.status } : Order).paidAt = ow.base.paidAt ∧
    ({ ow.base with status := dto.status } : Order).stripeChargeId
      = ow.base.stripeChargeId ∧
    ({ ow.base with status := dto.status } : Order).items = ow.base.items ∧
    (changeStatus env db dto).db.orders = updateStatus db.orders dto.id dto.status ∧
    (changeStatus env db dto).db.receipts = db.receipts ∧
    ∀ o ∈ db.orders, o.id ≠ dto.id → o ∈ (changeStatus env db dto).db.orders := by
  have hb : (ow.base.status == dto.status) = false := by
    simp [hs]
  refine ⟨?_, rfl, rfl, rfl, rfl, rfl, rfl, rfl, ?_, ?_, ?_⟩
  · simp [changeStatus, h, hb]
  · simp [changeStatus, h, hb]
  · simp [changeStatus, h, hb]
  · intro o ho hne
    have hid : (o.id == dto.id) = false := by simp [hne]
    have hmem := List.mem_map_of_mem
      (fun x => if x.id == dto.id then { x with status := dto.status } else x) ho
    simp only [hid] at hmem
    simp [changeStatus, h, hb, updateStatus]
    simpa [hid] using hmem

/-- C7 witness: the `PENDING` → `PAID` transition on the stored
pending order, via `changeStatus_updates_only_status`. -/
theorem changeStatus_updates_only_status_witness :
    (changeStatus envW dbOne { id := "1", status := .PAID }).result =
      .ok (.updated { orderA with status := .PAID }) ∧
    ({ orderA with status := OrderStatus.PAID } : Order).id = orderA.id ∧
    ({ orderA with status := OrderStatus.PAID } : Order).totalAmount
      = orderA.totalAmount ∧
    ({ orderA with status := OrderStatus.PAID } : Order).totalItems
      = orderA.totalItems ∧
    ({ orderA with status := OrderStatus.PAID } : Order).paid = orderA.paid ∧
    ({ orderA with status := OrderStatus.PAID } : Order).paidAt = orderA.paidAt ∧
    ({ orderA with status := OrderStatus.PAID } : Order).stripeChargeId
      = orderA.stripeChargeId ∧
    ({ orderA with status := OrderStatus.PAID } : Order).items = orderA.items ∧
    (changeStatus envW dbOne { id := "1", status := .PAID }).db.orders
      = updateStatus dbOne.orders "1" .PAID ∧
    (changeStatus envW dbOne { id := "1", status := .PAID }).db.receipts
      = dbOne.receipts ∧
    ∀ o ∈ dbOne.orders, o.id ≠ "1" →
      o ∈ (changeStatus envW dbOne { id := "1", status := .PAID }).db.orders :=
  changeStatus_updates_only_status envW dbOne { id := "1", status := .PAID }
    owA [["A"]] rfl (by decide)

/-- C10: every `changeStatus` on an existing order goes through
`findOne` and so performs a fresh remote product-validation call over
the order's own productIds, in the no-op case too; the no-op branch
returns the name-decorated order while the actual-transition branch
returns the bare updated record without decoration — observably
different shapes. -/
theorem changeStatus_always_validates
    (env : Env) (db : Db) (dto : ChangeOrderStatusDto)
    (ow : OrderWithNames) (tr : List (List String))
    (h : findOne env db dto.id = (.ok ow, tr)) :
    (changeStatus env db dto).calls = tr ∧
    tr = [ow.base.items.map (·.productId)] ∧
    (ow.base.status = dto.status →
      (changeStatus env db dto).result = .ok (.unchangedDecorated ow)) ∧
    (ow.base.status ≠ dto.status →
      (changeStatus env db dto).result =
        .ok (.updated { ow.base with status := dto.status })) := by
  have htr := (findOne_ok_spec env db dto.id ow tr h).2
  by_cases hc : ow.base.status = dto.status
  · have hb : (ow.base.status == dto.status) = true := by simp [hc]
    refine ⟨?_, htr, fun _ => ?_, fun hne => absurd hc hne⟩ <;>
      simp [changeStatus, h, hb]
  · have hb : (ow.base.status == dto.status) = false := by simp [hc]
    refine ⟨?_, htr, fun he => absurd he hc, fun _ => ?_⟩ <;>
      simp [changeStatus, h, hb]

/-- C10 witness: the no-op transition on the stored pending order
makes exactly the one validator call `["A"]` and returns the decorated
shape, via `changeStatus_always_validates`. -/
theorem changeStatus_always_validates_witness :
    (changeStatus envW dbOne { id := "1", status := .PENDING }).calls = [["A"]] ∧
    ([["A"]] : List (List String)) = [owA.base.items.map (·.productId)] ∧
    (owA.base.status = OrderStatus.PENDING →
      (changeStatus envW dbOne { id := "1", status := .PENDING }).result =
        .ok (.unchangedDecorated owA)) ∧
    (owA.base.status ≠ OrderStatus.PENDING →
      (changeStatus envW dbOne { id := "1", status := .PENDING }).result =
        .ok (.updated { owA.base with status := .PENDING })) :=
  changeStatus_always_validates envW dbOne { id := "1", status := .PENDING }
    owA [["A"]] rfl

/-- Replacing the found row by a row with the same id keeps it the
first match of a `find?` by id. -/
theorem find?_update (l : List Order) (ident : String) (u order : Order)
    (h : l.find? (fun o => o.id == ident) = some order)
    (hu : u.id = order.id) :
    (l.map fun o => if o.id == ident then u else o).find?
      (fun o => o.id == ident) = some u := by
  induction l with
  | nil => simp at h
  | cons a l ih =>
    simp only [List.map_cons]
    by_cases ha : a.id = ident
    · have hb : (a.id == ident) = true := by simp [ha]
      simp only [List.find?, hb] at h
      have hord : order = a := (Option.some.inj h).symm
      have hbu : (u.id == ident) = true := by simp [hu, hord, ha]
      have hifu : (if a.id == ident then u else a) = u := by simp [ha]
      rw [hifu]
      simp only [List.find?, hbu]
    · have hb : (a.id == ident) = false := by simp [ha]
      simp only [List.find?, hb] at h
      have hifa : (if a.id == ident then u else a) = a := by simp [ha]
      rw [hifa]
      simp only [List.find?, hb]
      exact ih h

/-- C3: for every paid notification naming an existing order (with no
receipt yet, per the one-to-one schema), `paidOrder` returns and
stores the order with status PAID, paid = true, a non-null paidAt,
and the payment reference recorded, and the store then holds exactly
one OrderReceipt for that order carrying the given URL — all in one
store update (write count +1); moreover every failing `paidOrder`
leaves the store exactly as it was, so no state is reachable with the
paid flag set but the receipt missing or vice versa. -/
theorem paidOrder_atomic_finalization
    (db : Db) (dto : PaidOrderDto) (order : Order)
    (h1 : findOrder db dto.orderId = some order)
    (h2 : db.receipts.filter (fun r => r.orderId == dto.orderId) = []) :
    (paidOrder db dto).1 = .ok { order with
      status := .PAID, paid := true,
      paidAt := some db.now, stripeChargeId := some dto.stripePaymentId } ∧
    ({ order with
       status := OrderStatus.PAID, paid := true,
       paidAt := some db.now,
       stripeChargeId := some dto.stripePaymentId } : Order).paidAt ≠ none ∧
    findOrder (paidOrder db dto).2 dto.orderId =
      some { order with
             status := .PAID, paid := true, paidAt := some db.now,
             stripeChargeId := some dto.stripePaymentId } ∧
    (paidOrder db dto).2.receipts.filter (fun r => r.orderId == dto.orderId) =
      [{ orderId := dto.orderId, receiptUrl := dto.receiptUrl }] ∧
    (paidOrder db dto).2.writeCount = db.writeCount + 1 ∧
    (∀ (d : Db) (dt : PaidOrderDto) (e : SvcError),
      (paidOrder d dt).1 = .error e → (paidOrder d dt).2 = d) := by
  have habort : ∀ (d : Db) (dt : PaidOrderDto) (e : SvcError),
      (paidOrder d dt).1 = .error e → (paidOrder d dt).2 = d := by
    intro d dt e he
    cases hfo : findOrder d dt.orderId with
    | none => simp [paidOrder, hfo]
    | some o =>
      by_cases hr : d.receipts.filter (fun r => r.orderId == dt.orderId) = []
      · simp [paidOrder, hfo, hr] at he
      · simp [paidOrder, hfo, hr]
  refine ⟨?_, by simp, ?_, ?_, ?_, habort⟩
  · simp [paidOrder, h1, h2]
  · simp only [paidOrder, h1, h2]
    rw [if_neg (by simp [h2])]
    exact find?_update db.orders dto.orderId _ order h1 rfl
  · simp only [paidOrder, h1, h2]
    rw [if_neg (by simp [h2])]
    simp [List.filter_append, h2]
  · simp only [paidOrder, h1, h2]
    rw [if_neg (by simp [h2])]

/-- C3 witness: paying the stored pending order, via
`paidOrder_atomic_finalization`. -/
theorem paidOrder_atomic_finalization_witness :
    (paidOrder dbOne { orderId := "1", stripePaymentId := "ch_1",
                       receiptUrl := "url" }).1 =
      .ok { orderA with
            status := .PAID, paid := true, paidAt := some dbOne.now,
            stripeChargeId := some "ch_1" } ∧
    ({ orderA with
       status := OrderStatus.PAID, paid := true,
       paidAt := some dbOne.now,
       stripeChargeId := some "ch_1" } : Order).paidAt ≠ none ∧
    findOrder (paidOrder dbOne { orderId := "1", stripePaymentId := "ch_1",
                                 receiptUrl := "url" }).2 "1" =
      some { orderA with
             status := .PAID, paid := true, paidAt := some dbOne.now,
             stripeChargeId := some "ch_1" } ∧
    (paidOrder dbOne { orderId := "1", stripePaymentId := "ch_1",
                       receiptUrl := "url" }).2.receipts.filter
        (fun r => r.orderId == "1") =
      [{ orderId := "1", receiptUrl := "url" }] ∧
    (paidOrder dbOne { orderId := "1", stripePaymentId := "ch_1",
                       receiptUrl := "url" }).2.writeCount =
      dbOne.writeCount + 1 ∧
    (∀ (d : Db) (dt : PaidOrderDto) (e : SvcError),
      (paidOrder d dt).1 = .error e → (paidOrder d dt).2 = d) :=
  paidOrder_atomic_finalization dbOne
    { orderId := "1", stripePaymentId := "ch_1", receiptUrl := "url" }
    orderA rfl rfl

/-- C9 counterexample: with the validator erroring, `findOne` on the
stored order delivers the raw remote error, not the uniform
`RpcException`-wrapped shape the claim asserts for every operation. -/
theorem findOne_raw_validator_error_cex :
    (findOne envErr dbOne "1").1 = .error (.raw (.remote "ECONNREFUSED")) ∧
    (findOne envErr dbOne "1").1 ≠
      .error (.rpcWrapped (.remote "ECONNREFUSED")) :=
  ⟨rfl, by decide⟩

/-- C9 amended: `create` wraps any validator error (and anything else
thrown inside its try block) into the uniform remote-procedure-failure
shape carrying the original cause, and `createPaymentSession` wraps
gateway errors the same way; but `findOne` has no such wrapping, so a
validator error during its decoration step propagates raw. -/
theorem remote_error_wrapping_amended :
    (∀ (env : Env) (db : Db) (dto : CreateOrderDto) (c : Cause),
      env.validate (productIdsSent dto.items) = .error c →
      (create env db dto).result = .error (.rpcWrapped c)) ∧
    (∀ (env : Env) (ow : OrderWithNames) (c : Cause),
      env.payment (paymentRequestOf ow) = .error c →
      createPaymentSession env ow = .error (.rpcWrapped c)) ∧
    (∀ (env : Env) (db : Db) (ident : String) (order : Order) (c : Cause),
      findOrder db ident = some order →
      env.validate (order.items.map (·.productId)) = .error c →
      (findOne env db ident).1 = .error (.raw c)) := by
  refine ⟨?_, ?_, ?_⟩
  · intro env db dto c hv
    simp [create, hv]
  · intro env ow c hp
    simp [createPaymentSession, hp]
  · intro env db ident order c h1 hv
    simp [findOne, h1, hv]

/-- C9 amended witness: the all-errors environment at concrete inputs,
via `remote_error_wrapping_amended`. -/
theorem remote_error_wrapping_amended_witness :
    (create envErr db0 dtoW).result =
      .error (.rpcWrapped (.remote "ECONNREFUSED")) ∧
    createPaymentSession envErr owA =
      .error (.rpcWrapped (.remote "ECONNREFUSED")) ∧
    (findOne envErr dbOne "1").1 = .error (.raw (.remote "ECONNREFUSED")) :=
  ⟨remote_error_wrapping_amended.1 envErr db0 dtoW _ rfl,
   remote_error_wrapping_amended.2.1 envErr owA _ rfl,
   remote_error_wrapping_amended.2.2 envErr dbOne "1" orderA _ rfl rfl⟩

end Orders
